import Mathlib

/-!
Verification of the OraCareAiScan server against its specification.

The development shallowly embeds the server-side request handlers of the
repository (Express route handlers in `src/server/routes.ts` and the
historical handler variants kept in `src/unnamed/part_000` /
`src/unnamed/part_001`, the Drizzle schema in `src/db/schema.ts`, and the
startup environment check in `src/server/index.ts`) as executable Lean
functions, and proves the spec's testable properties about them.

Conventions used throughout:
* JavaScript `JSON.parse` is embedded as `jsonParse`, a strict
  recursive-descent JSON parser over the character list of the input.
* JSON numbers are represented exactly as written in the source text, as a
  mantissa/decimal-exponent pair `Json.num m e` denoting `m / 10 ^ e`
  (interpreted by `jsonNumVal`); this keeps the parser's arithmetic inside
  `Int`/`Nat`, which the kernel evaluates.
* Database tables are lists of rows; SQL `WHERE` is `List.filter`,
  `ORDER BY` is `List.insertionSort`, `DELETE` removes every matching row.
* Timestamps are natural numbers.
-/

/-- JSON values, as produced by `JSON.parse`.  A number literal with
mantissa `m` and `e` digits after the decimal point denotes `m / 10 ^ e`. -/
inductive Json where
  | null : Json
  | bool (b : Bool) : Json
  | num (mant : Int) (exp10 : Nat) : Json
  | str (s : String) : Json
  | arr (elems : List Json) : Json
  | obj (fields : List (String × Json)) : Json

/-- The rational value denoted by a `Json.num` literal. -/
def jsonNumVal (mant : Int) (exp10 : Nat) : ℚ := (mant : ℚ) / 10 ^ exp10

/-- Skip JSON whitespace. -/
def skipWs : List Char → List Char
  | [] => []
  | c :: cs => if c = ' ' ∨ c = '\n' ∨ c = '\t' ∨ c = '\r' then skipWs cs else c :: cs

/-- Translate a JSON string escape character (the character after a
backslash) to the character it denotes. -/
def unescape (c : Char) : Option Char :=
  if c = '"' then some '"'
  else if c = '\\' then some '\\'
  else if c = '/' then some '/'
  else if c = 'n' then some '\n'
  else if c = 't' then some '\t'
  else if c = 'r' then some '\r'
  else if c = 'b' then some (Char.ofNat 8)
  else if c = 'f' then some (Char.ofNat 12)
  else none

/-- Parse the body of a JSON string literal (the opening quote has already
been consumed); returns the decoded string and the rest of the input. -/
def pStringBody : List Char → List Char → Option (String × List Char)
  | _, [] => none
  | acc, '"' :: cs => some (String.mk acc.reverse, cs)
  | _, '\\' :: [] => none
  | acc, '\\' :: e :: cs =>
    match unescape e with
    | some d => pStringBody (d :: acc) cs
    | none => none
  | acc, c :: cs => if c.toNat < 32 then none else pStringBody (c :: acc) cs

/-- Decimal digits to a natural number. -/
def digitsToNat (ds : List Char) : Nat :=
  ds.foldl (fun n c => n * 10 + (c.toNat - 48)) 0

/-- Parse an optional exponent part of a JSON number ( `e` / `E` already
consumed) and apply it to the mantissa/exponent accumulated so far. -/
def pExp (mant : Int) (exp10 : Nat) (cs : List Char) : Option ((Int × Nat) × List Char) :=
  let sgncs : Bool × List Char :=
    match cs with
    | '-' :: r => (true, r)
    | '+' :: r => (false, r)
    | _ => (false, cs)
  let ed := sgncs.2.takeWhile Char.isDigit
  if ed = [] then none
  else
    let e := digitsToNat ed
    let rest := sgncs.2.drop ed.length
    if sgncs.1 then
      some ((mant, exp10 + e), rest)
    else if e ≤ exp10 then
      some ((mant, exp10 - e), rest)
    else
      some ((mant * 10 ^ (e - exp10), 0), rest)

/-- Parse a JSON number (strict grammar: optional minus, no leading zeros,
optional fraction, optional exponent). -/
def pNumber (cs : List Char) : Option ((Int × Nat) × List Char) :=
  let sgncs : Bool × List Char :=
    match cs with
    | '-' :: r => (true, r)
    | _ => (false, cs)
  let ip := sgncs.2.takeWhile Char.isDigit
  if ip = [] then none
  else if ip.head? = some '0' ∧ ip.length ≠ 1 then none
  else
    let cs2 := sgncs.2.drop ip.length
    let fr : Option (List Char × List Char) :=
      match cs2 with
      | '.' :: rest =>
        let fd := rest.takeWhile Char.isDigit
        if fd = [] then none else some (fd, rest.drop fd.length)
      | _ => some ([], cs2)
    match fr with
    | none => none
    | some (fd, cs3) =>
      let mant0 : Int := Int.ofNat (digitsToNat ip * 10 ^ fd.length + digitsToNat fd)
      let mant : Int := if sgncs.1 then -mant0 else mant0
      match cs3 with
      | 'e' :: rest => pExp mant fd.length rest
      | 'E' :: rest => pExp mant fd.length rest
      | _ => some ((mant, fd.length), cs3)

mutual

/-- Parse one JSON value; `fuel` bounds the recursion depth. -/
def parseVal : Nat → List Char → Option (Json × List Char)
  | 0, _ => none
  | fuel + 1, cs =>
    match skipWs cs with
    | [] => none
    | c :: rest =>
      if c = '"' then
        match pStringBody [] rest with
        | some (s, r) => some (Json.str s, r)
        | none => none
      else if c = '\x7b' then
        match skipWs rest with
        | '\x7d' :: r2 => some (Json.obj [], r2)
        | cs2 =>
          match parseFields fuel cs2 with
          | some (fs, r) => some (Json.obj fs, r)
          | none => none
      else if c = '[' then
        match skipWs rest with
        | ']' :: r2 => some (Json.arr [], r2)
        | cs2 =>
          match parseElems fuel cs2 with
          | some (es, r) => some (Json.arr es, r)
          | none => none
      else if c = 't' then
        match rest with
        | 'r' :: 'u' :: 'e' :: r => some (Json.bool true, r)
        | _ => none
      else if c = 'f' then
        match rest with
        | 'a' :: 'l' :: 's' :: 'e' :: r => some (Json.bool false, r)
        | _ => none
      else if c = 'n' then
        match rest with
        | 'u' :: 'l' :: 'l' :: r => some (Json.null, r)
        | _ => none
      else if c = '-' ∨ c.isDigit then
        match pNumber (c :: rest) with
        | some ((m, e), r) => some (Json.num m e, r)
        | none => none
      else none

/-- Parse the fields of a JSON object after the opening brace (at least one
field). -/
def parseFields : Nat → List Char → Option (List (String × Json) × List Char)
  | 0, _ => none
  | fuel + 1, cs =>
    match skipWs cs with
    | '"' :: rest =>
      match pStringBody [] rest with
      | none => none
      | some (key, cs2) =>
        match skipWs cs2 with
        | ':' :: cs3 =>
          match parseVal fuel cs3 with
          | none => none
          | some (v, cs4) =>
            match skipWs cs4 with
            | ',' :: cs5 =>
              match parseFields fuel cs5 with
              | some (fs, r) => some ((key, v) :: fs, r)
              | none => none
            | '\x7d' :: cs5 => some ([(key, v)], cs5)
            | _ => none
        | _ => none
    | _ => none

/-- Parse the elements of a JSON array after the opening bracket (at least
one element). -/
def parseElems : Nat → List Char → Option (List Json × List Char)
  | 0, _ => none
  | fuel + 1, cs =>
    match parseVal fuel cs with
    | none => none
    | some (v, cs2) =>
      match skipWs cs2 with
      | ',' :: cs3 =>
        match parseElems fuel cs3 with
        | some (es, r) => some (v :: es, r)
        | none => none
      | ']' :: cs3 => some ([v], cs3)
      | _ => none

end

/-- Embedding of JavaScript `JSON.parse`: strict parse of the whole input,
`none` on any syntax error. -/
def jsonParse (s : String) : Option Json :=
  match parseVal (s.length + 1) s.data with
  | none => none
  | some (v, rest) => if skipWs rest = [] then some v else none

/-- Property lookup on the fields of a parsed JSON object; as in
JavaScript, a later duplicate key wins. -/
def jsonGetFields : List (String × Json) → String → Option Json
  | [], _ => none
  | (k', v) :: rest, k =>
    match jsonGetFields rest k with
    | some r => some r
    | none => if k' = k then some v else none

/-- JavaScript property access `v[k]` on a parsed JSON value: defined on
objects, `undefined` (here `none`) on every other value. -/
def jsonGet : Json → String → Option Json
  | Json.obj fields, k => jsonGetFields fields k
  | _, _ => none

/-- Embedding of JavaScript `String.prototype.includes`: `s` contains
`pat` as a contiguous substring. -/
def containsSub (s pat : String) : Bool :=
  s.data.tails.any (fun t => pat.data.isPrefixOf t)

/-- The analysis-result parsing step shared by the handler variants in
`src/unnamed/part_000` (lines 106-117) and `src/unnamed/part_001`
(lines 129-139): `JSON.parse` the completion text; on a parse failure fall
back to the keyword heuristic
`result = text.includes("Concerning") ? "Concerning" : "Normal"`,
`confidence = 0.95`, `explanation = text`. -/
def parseAnalysisResult (analysisText : String) : Json :=
  match jsonParse analysisText with
  | some v => v
  | none =>
    Json.obj
      [("result", Json.str (if containsSub analysisText "Concerning" then "Concerning" else "Normal")),
       ("confidence", Json.num 95 2),
       ("explanation", Json.str analysisText)]

/-- The verdict triple placed in the HTTP response by the handlers in
`src/unnamed/part_000` (lines 119-126) and `src/unnamed/part_001`:
the `result`, `confidence` and `explanation` properties read off the
value `parseAnalysisResult` produced (absent properties are
`undefined`, modelled as `none`). -/
def analysisResponseOf (analysisText : String) : Option Json × Option Json × Option Json :=
  (jsonGet (parseAnalysisResult analysisText) "result",
   jsonGet (parseAnalysisResult analysisText) "confidence",
   jsonGet (parseAnalysisResult analysisText) "explanation")

/-- A row of the `analyses` table, restricted to the columns the verified
operations read or write.  `confidence` holds the stored fixed-precision
decimal as a rational; `timestamp` is a natural-number creation time. -/
structure Analysis where
  id : String
  userId : String
  imageUrl : String
  result : String
  confidence : ℚ
  timestamp : Nat
deriving Repr, DecidableEq

instance analysisTsLeDecidable :
    DecidableRel (fun a b : Analysis => a.timestamp ≤ b.timestamp) :=
  fun a b => Nat.decLe a.timestamp b.timestamp

/-- The history query of the canonical `GET /api/analysis/history` handler
(`src/server/routes.ts` lines 98-101):
`findMany({ where: eq(analyses.userId, uid), orderBy: [analyses.timestamp] })`
— rows of the given user, ordered by `timestamp`; a bare column in a
Drizzle `orderBy` sorts ascending. -/
def listByUser (uid : String) (db : List Analysis) : List Analysis :=
  List.insertionSort (fun a b => a.timestamp ≤ b.timestamp)
    (db.filter (fun r => r.userId == uid))

/-- The `DELETE /api/analysis/:id` handler (`src/server/routes.ts`
lines 111-127) after authentication: delete every row matching both the
id and the calling user, then respond 204 with an empty body
unconditionally.  Returns the table after the delete and the HTTP
status. -/
def deleteAnalysisHandler (uid id : String) (db : List Analysis) : List Analysis × Nat :=
  (db.filter (fun r => !(r.id == id && r.userId == uid)), 204)

/-- Round a rational to 3 decimal places, the scale of the
`decimal("confidence", { precision: 4, scale: 3 })` column of
`src/db/schema.ts` (line 23). -/
def round3 (c : ℚ) : ℚ := (round (c * 1000) : ℚ) / 1000

/-- Modelled from the spec: the fixed-precision `decimal(4, 3)` storage of
the `confidence` column is performed by the database engine, which is not
part of this repository's sources; per the spec it rounds to 3 decimal
places, and a value that does not fit in precision 4 / scale 3 (absolute
value reaching 10) is a numeric-overflow error (`none`). -/
def decimalStore43 (c : ℚ) : Option ℚ :=
  if -10 < round3 c ∧ round3 c < 10 then some (round3 c) else none

/-- The persistence insert used by `POST /api/analysis`
(`src/server/routes.ts` lines 75-84, `src/unnamed/part_001`
lines 142-150): append one row holding the supplied user id, image
reference, verdict label and confidence, the confidence passing through
the `decimal(4, 3)` column type. -/
def insertAnalysis (db : List Analysis) (id uid imageUrl result : String)
    (c : ℚ) (ts : Nat) : Option (List Analysis) :=
  (decimalStore43 c).map (fun q => db ++ [⟨id, uid, imageUrl, result, q, ts⟩])

/-- An uploaded file as exposed by `express-fileupload`: its MIME type and
its size in bytes. -/
structure UploadFile where
  mimetype : String
  size : Nat
deriving Repr, DecidableEq

/-- Outcome of the intake step of a `POST /api/analysis` handler: either
an early response (sent before the inference call, hence with no
inference-API call and no database write), or control reaching the
Anthropic `messages.create` call with the given `media_type`. -/
inductive Intake where
  | reject (status : Nat) (msg : String) : Intake
  | callInference (mediaType : String) : Intake
deriving Repr, DecidableEq

/-- The accepted MIME types of `src/unnamed/part_001` line 62. -/
def validTypes : List String := ["image/jpeg", "image/png", "image/gif", "image/webp"]

/-- Intake step of the `POST /api/analysis` handler of
`src/unnamed/part_001` (lines 49-77): 400 when no file is present, 400
when the MIME type is not in `validTypes`, 400 when the size exceeds
5 MB; otherwise proceed to the inference call with the file's MIME
type. -/
def postAnalysisIntake (file? : Option UploadFile) : Intake :=
  match file? with
  | none => Intake.reject 400 "No image file received"
  | some image =>
    if !(validTypes.contains image.mimetype) then
      Intake.reject 400 ("Invalid file type. Supported types: " ++ String.intercalate ", " validTypes)
    else if 5 * 1024 * 1024 < image.size then
      Intake.reject 400 "File too large. Maximum size is 5MB"
    else
      Intake.callInference image.mimetype

/-- Intake step of the canonical authenticated `POST /api/analysis`
handler (`src/server/routes.ts` lines 40-70): the only check is file
presence (`throw new Error("No image provided")`, which the handler's
`catch` turns into a 500 response); any present file of any MIME type
and any size proceeds straight to the inference call, with
`media_type` hardcoded to `"image/jpeg"`. -/
def postAnalysisIntakeCanonical (file? : Option UploadFile) : Intake :=
  match file? with
  | none => Intake.reject 500 "No image provided"
  | some _ => Intake.callInference "image/jpeg"

/-- Token extraction of `verifyAuth` (`src/server/routes.ts` line 28):
`req.headers.authorization?.split("Bearer ")[1]`, where a missing
header, a header without the `"Bearer "` separator, and an empty token
are all falsy and make the middleware throw. -/
def verifyAuthGate (authHeader : Option String) (verify : String → Option String) :
    Option String :=
  match authHeader with
  | none => none
  | some h =>
    match (h.splitOn "Bearer ").get? 1 with
    | none => none
    | some t => if t = "" then none else verify t

/-- Observable outcome of a `GET /api/analysis/history` request: HTTP
status, error body (if any), how many persistence-layer calls ran, and
the rows returned. -/
structure HistoryResult where
  status : Nat
  errorBody : Option String
  dbCalls : Nat
  rows : List Analysis
deriving Repr, DecidableEq

/-- The `GET /api/analysis/history` endpoint behind `verifyAuth`
(`src/server/routes.ts` lines 26-37 and 94-108): when the gate fails the
middleware responds `401 { error: "Unauthorized" }` and the route
handler — and with it the database query — never runs; when it succeeds
the handler runs the per-user history query once. -/
def historyEndpoint (authHeader : Option String) (verify : String → Option String)
    (db : List Analysis) : HistoryResult :=
  match verifyAuthGate authHeader verify with
  | none => ⟨401, some "Unauthorized", 0, []⟩
  | some uid => ⟨200, none, 1, listByUser uid db⟩

/-- The startup environment check of `src/server/index.ts` (lines 28-43)
and of the variant kept in the second document of `src/db/schema.ts`
(lines 51-63): collect the required names whose value is falsy; pass
(`none`) when none are missing, otherwise fail with the list of missing
names (joined into the thrown error message).  `env` is the set of
environment names bound to truthy values. -/
def checkRequiredEnvVars (required env : List String) : Option (List String) :=
  let missing := required.filter (fun key => !(env.contains key))
  if missing.isEmpty then none else some missing

/-- Required names of the canonical `checkRequiredEnvVars`
(`src/server/index.ts` lines 29-32): only the database URL and the
inference-API key. -/
def requiredEnvCanonical : List String := ["DATABASE_URL", "ANTHROPIC_API_KEY"]

/-- Required names of the `checkRequiredEnvVars` variant (second document
of `src/db/schema.ts`, lines 52-56): database URL, identity-provider
service account and inference-API key. -/
def requiredEnvVariant : List String :=
  ["DATABASE_URL", "FIREBASE_SERVICE_ACCOUNT", "ANTHROPIC_API_KEY"]

/-- A column of the Drizzle schema: its SQL name, whether it is declared
`NOT NULL`, and whether it has a default value. -/
structure Column where
  name : String
  notNull : Bool
  hasDefault : Bool
deriving Repr, DecidableEq

/-- The `analyses` table of `src/db/schema.ts` (lines 18-31), column by
column. -/
def analysesColumns : List Column :=
  [⟨"id", true, true⟩,
   ⟨"user_id", true, false⟩,
   ⟨"image_url", true, false⟩,
   ⟨"result", true, false⟩,
   ⟨"confidence", true, false⟩,
   ⟨"explanation", true, false⟩,
   ⟨"recommendations", false, false⟩,
   ⟨"severity", true, false⟩,
   ⟨"status", true, true⟩,
   ⟨"patient_notes", false, false⟩,
   ⟨"follow_up_date", false, false⟩,
   ⟨"timestamp", true, true⟩]

/-- The columns the canonical `POST /api/analysis` handler supplies in its
`db.insert(analyses).values({...})` call (`src/server/routes.ts`
lines 77-83). -/
def canonicalInsertColumns : List String :=
  ["user_id", "image_url", "result", "confidence", "timestamp"]

/-- An insert satisfies the schema's `NOT NULL` constraints when every
`NOT NULL` column without a default receives a value. -/
def insertSatisfiesNotNull (supplied : List String) (cols : List Column) : Bool :=
  cols.all (fun c => !c.notNull || c.hasDefault || supplied.contains c.name)

/-- C1: for every completion text that fails strict JSON parsing, the
result parser yields the verdict with result `"Concerning"` exactly when
the raw text contains the substring `"Concerning"` (else `"Normal"`),
confidence the constant `0.95` (the literal `Json.num 95 2`), and
explanation the raw completion text verbatim. -/
theorem parse_fallback_heuristic (text : String) (h : jsonParse text = none) :
    analysisResponseOf text =
      (some (Json.str (if containsSub text "Concerning" then "Concerning" else "Normal")),
       some (Json.num 95 2),
       some (Json.str text)) := by
  unfold analysisResponseOf parseAnalysisResult
  rw [h]
  rfl

/-- C1 witness: the completion `"RESULT: Concerning, something vague"`
fails strict JSON parsing, and the parser yields result `"Concerning"`,
confidence `0.95`, explanation equal to that string verbatim. -/
theorem parse_fallback_heuristic_witness :
    jsonParse "RESULT: Concerning, something vague" = none ∧
    analysisResponseOf "RESULT: Concerning, something vague" =
      (some (Json.str "Concerning"), some (Json.num 95 2),
       some (Json.str "RESULT: Concerning, something vague")) ∧
    jsonNumVal 95 2 = 0.95 := by
  refine ⟨rfl, ?_, by norm_num [jsonNumVal]⟩
  rw [parse_fallback_heuristic "RESULT: Concerning, something vague" rfl]
  rfl

/-- C5: for every completion text that strict JSON parsing turns into an
object carrying `result`, `confidence` and `explanation` properties, the
parser passes exactly those three property values through unmodified. -/
theorem parse_success_verbatim (text : String) (fields : List (String × Json))
    (r c e : Json)
    (hp : jsonParse text = some (Json.obj fields))
    (hr : jsonGetFields fields "result" = some r)
    (hc : jsonGetFields fields "confidence" = some c)
    (he : jsonGetFields fields "explanation" = some e) :
    analysisResponseOf text = (some r, some c, some e) := by
  unfold analysisResponseOf parseAnalysisResult
  rw [hp]
  simp [jsonGet, hr, hc, he]

/-- C5 witness: the completion
`'{"result":"Normal","confidence":0.8,"explanation":"clear"}'` (braces
written `\x7b`/`\x7d`) parses and yields result `"Normal"`, confidence
`0.8` and explanation `"clear"`, all unmodified. -/
theorem parse_success_verbatim_witness :
    analysisResponseOf "\x7b\"result\":\"Normal\",\"confidence\":0.8,\"explanation\":\"clear\"\x7d" =
      (some (Json.str "Normal"), some (Json.num 8 1), some (Json.str "clear")) ∧
    jsonNumVal 8 1 = 0.8 :=
  ⟨parse_success_verbatim _
      [("result", Json.str "Normal"), ("confidence", Json.num 8 1),
       ("explanation", Json.str "clear")]
      (Json.str "Normal") (Json.num 8 1) (Json.str "clear") rfl rfl rfl rfl,
   by norm_num [jsonNumVal]⟩

/-- C9: the canonical `POST /api/analysis` insert supplies values for
exactly `user_id`, `image_url`, `result`, `confidence` and `timestamp`;
the `NOT NULL` columns `explanation` and `severity` have no default and
receive no value, so the insert violates the schema's `NOT NULL`
constraints on every request that reaches it. -/
theorem canonical_insert_violates_notnull :
    canonicalInsertColumns = ["user_id", "image_url", "result", "confidence", "timestamp"] ∧
    (analysesColumns.filter
        (fun c => c.notNull && !c.hasDefault && !(canonicalInsertColumns.contains c.name))).map
      Column.name = ["explanation", "severity"] ∧
    insertSatisfiesNotNull canonicalInsertColumns analysesColumns = false :=
  ⟨rfl, rfl, rfl⟩

/-- C10: for every id, every authenticated caller and every table state,
the `DELETE /api/analysis/:id` handler responds 204, never 404, whether or
not any row matched the `(id, userId)` condition. -/
theorem delete_always_204 (uid id : String) (db : List Analysis) :
    (deleteAnalysisHandler uid id db).2 = 204 ∧
    (deleteAnalysisHandler uid id db).2 ≠ 404 := by
  refine ⟨rfl, ?_⟩
  simp [deleteAnalysisHandler]

/-- C2 counterexample: three rows of user `"alice"` inserted at times
1 < 2 < 3 come back from the canonical history query in ascending order
`[1, 2, 3]`, not the claimed descending order `[3, 2, 1]`. -/
theorem listByUser_not_descending :
    (listByUser "alice"
      [⟨"i1", "alice", "u", "Normal", 1, 1⟩,
       ⟨"i2", "alice", "u", "Normal", 1, 2⟩,
       ⟨"i3", "alice", "u", "Normal", 1, 3⟩]).map Analysis.timestamp = [1, 2, 3] ∧
    ([1, 2, 3] : List Nat) ≠ [3, 2, 1] := by
  exact ⟨rfl, by decide⟩

/-- C2 (amended): for rows of user `u` created at strictly increasing
times `t1 < t2 < t3` (alongside a row of a different user `v`), the
canonical history query returns exactly the rows belonging to `u`,
ordered by creation time ascending, i.e. in order `[t1, t2, t3]`. -/
theorem listByUser_ascending (u v : String) (t0 t1 t2 t3 : Nat)
    (huv : v ≠ u) (h12 : t1 < t2) (h23 : t2 < t3) :
    listByUser u
      [⟨"r0", v, "u", "Normal", 1, t0⟩,
       ⟨"r1", u, "u", "Normal", 1, t1⟩,
       ⟨"r2", u, "u", "Normal", 1, t2⟩,
       ⟨"r3", u, "u", "Normal", 1, t3⟩] =
      [⟨"r1", u, "u", "Normal", 1, t1⟩,
       ⟨"r2", u, "u", "Normal", 1, t2⟩,
       ⟨"r3", u, "u", "Normal", 1, t3⟩] := by
  have hv : (v == u) = false := beq_eq_false_iff_ne.mpr huv
  simp [listByUser, List.filter, hv, List.insertionSort, List.orderedInsert,
    Nat.le_of_lt h12, Nat.le_of_lt h23]

/-- C2 witness: concrete users and times discharging the amended
theorem's hypotheses. -/
theorem listByUser_ascending_witness :
    listByUser "alice"
      [⟨"r0", "bob", "u", "Normal", 1, 9⟩,
       ⟨"r1", "alice", "u", "Normal", 1, 1⟩,
       ⟨"r2", "alice", "u", "Normal", 1, 2⟩,
       ⟨"r3", "alice", "u", "Normal", 1, 3⟩] =
      [⟨"r1", "alice", "u", "Normal", 1, 1⟩,
       ⟨"r2", "alice", "u", "Normal", 1, 2⟩,
       ⟨"r3", "alice", "u", "Normal", 1, 3⟩] :=
  listByUser_ascending "alice" "bob" 9 1 2 3 (by decide) (by decide) (by decide)

/-- C3 counterexample: user `"B"` deleting user `"A"`'s row leaves the
table unchanged, but the handler responds 204 — a success-shaped
response, not the claimed not-found/unauthorized outcome (404 or 401). -/
theorem delete_cross_user_responds_204 :
    (deleteAnalysisHandler "B" "x1" [⟨"x1", "A", "u", "Normal", 1, 1⟩]).1 =
      [⟨"x1", "A", "u", "Normal", 1, 1⟩] ∧
    (deleteAnalysisHandler "B" "x1" [⟨"x1", "A", "u", "Normal", 1, 1⟩]).2 = 204 ∧
    (204 : Nat) ≠ 404 ∧ (204 : Nat) ≠ 401 := by
  exact ⟨rfl, rfl, by decide, by decide⟩

/-- C3 (amended): a delete invoked by a non-owner leaves the stored state
unchanged (given that ids are unique in the table) but responds 204, and
a delete invoked by the owner removes the row, also responding 204. -/
theorem deleteByIdForUser_ownership (db : List Analysis) (row : Analysis) (caller : String)
    (_hmem : row ∈ db)
    (huniq : ∀ r ∈ db, r.id = row.id → r = row)
    (hneq : row.userId ≠ caller) :
    (deleteAnalysisHandler caller row.id db).1 = db ∧
    (deleteAnalysisHandler caller row.id db).2 = 204 ∧
    row ∉ (deleteAnalysisHandler row.userId row.id db).1 ∧
    (deleteAnalysisHandler row.userId row.id db).2 = 204 := by
  refine ⟨?_, rfl, ?_, rfl⟩
  · apply List.filter_eq_self.mpr
    intro a ha
    by_cases hid : a.id = row.id
    · have haeq : a = row := huniq a ha hid
      simp [hid, haeq, hneq]
    · simp [hid]
  · intro hmem'
    have hp := List.of_mem_filter hmem'
    simp at hp

/-- C3 witness: concrete table, row and caller discharging the amended
theorem's hypotheses. -/
theorem deleteByIdForUser_ownership_witness :
    (deleteAnalysisHandler "B" "x1" [⟨"x1", "A", "u", "Normal", 1, 1⟩]).1 =
      [⟨"x1", "A", "u", "Normal", 1, 1⟩] ∧
    (deleteAnalysisHandler "B" "x1" [⟨"x1", "A", "u", "Normal", 1, 1⟩]).2 = 204 ∧
    (⟨"x1", "A", "u", "Normal", 1, 1⟩ : Analysis) ∉
      (deleteAnalysisHandler "A" "x1" [⟨"x1", "A", "u", "Normal", 1, 1⟩]).1 ∧
    (deleteAnalysisHandler "A" "x1" [⟨"x1", "A", "u", "Normal", 1, 1⟩]).2 = 204 :=
  deleteByIdForUser_ownership [⟨"x1", "A", "u", "Normal", 1, 1⟩]
    ⟨"x1", "A", "u", "Normal", 1, 1⟩ "B" (by decide) (by decide) (by decide)

/-- C6: every request to the history endpoint whose `Authorization`
header is missing, or on which the auth gate otherwise fails (token
missing from the header, token rejected by the identity provider, or
provider error — all of which make `verifyAuthGate` return `none`),
receives the uniform response `401 { error: "Unauthorized" }`, and no
persistence-layer call runs. -/
theorem history_unauthorized (authHeader : Option String) (verify : String → Option String)
    (db : List Analysis)
    (h : authHeader = none ∨ verifyAuthGate authHeader verify = none) :
    historyEndpoint authHeader verify db = ⟨401, some "Unauthorized", 0, []⟩ := by
  have hg : verifyAuthGate authHeader verify = none := by
    rcases h with h | h
    · rw [h]; rfl
    · exact h
  unfold historyEndpoint
  rw [hg]

/-- C6 witness: a request with no `Authorization` header, against a
provider that would reject every token and a nonempty table. -/
theorem history_unauthorized_witness :
    historyEndpoint none (fun _ => none)
      [⟨"i1", "alice", "u", "Normal", 1, 1⟩] = ⟨401, some "Unauthorized", 0, []⟩ :=
  history_unauthorized none (fun _ => none)
    [⟨"i1", "alice", "u", "Normal", 1, 1⟩] (Or.inl rfl)

/-- C4 counterexample: the canonical authenticated `POST /api/analysis`
handler performs no MIME-type or size validation — a present file of MIME
type `text/plain`, which is not in the allow-list, proceeds straight to
the inference-API call (with `media_type` hardcoded to `image/jpeg`)
instead of being rejected with 400. -/
theorem canonical_intake_skips_validation :
    postAnalysisIntakeCanonical (some ⟨"text/plain", 10⟩) =
      Intake.callInference "image/jpeg" ∧
    validTypes.contains "text/plain" = false :=
  ⟨rfl, by decide⟩

/-- C4 (amended): in the handler variant that implements intake
validation (`src/unnamed/part_001`), every file whose MIME type is in
the allow-list and whose size is within the 5 MB limit proceeds to the
inference call; a disallowed MIME type, an oversize file, or a missing
file is answered with 400 before the inference call (hence with no
inference-API call and no database write).  The canonical authenticated
handler checks only file presence. -/
theorem postAnalysisIntake_validation (f : UploadFile) :
    (validTypes.contains f.mimetype = true → f.size ≤ 5 * 1024 * 1024 →
      postAnalysisIntake (some f) = Intake.callInference f.mimetype) ∧
    (validTypes.contains f.mimetype = false →
      postAnalysisIntake (some f) =
        Intake.reject 400
          ("Invalid file type. Supported types: " ++ String.intercalate ", " validTypes)) ∧
    (validTypes.contains f.mimetype = true → 5 * 1024 * 1024 < f.size →
      postAnalysisIntake (some f) =
        Intake.reject 400 "File too large. Maximum size is 5MB") ∧
    postAnalysisIntake none = Intake.reject 400 "No image file received" := by
  refine ⟨?_, ?_, ?_, rfl⟩
  · intro hm hs
    have hm' : f.mimetype ∈ validTypes := by simpa using hm
    simp [postAnalysisIntake, hm', Nat.not_lt.mpr hs]
  · intro hm
    have hm' : f.mimetype ∉ validTypes := by simpa using hm
    simp [postAnalysisIntake, hm']
  · intro hm hs
    have hm' : f.mimetype ∈ validTypes := by simpa using hm
    simp [postAnalysisIntake, hm', hs]

/-- C4 witness: a 100-byte PNG passes intake and reaches the inference
call with its own MIME type. -/
theorem postAnalysisIntake_validation_witness :
    postAnalysisIntake (some ⟨"image/png", 100⟩) = Intake.callInference "image/png" :=
  (postAnalysisIntake_validation ⟨"image/png", 100⟩).1 (by decide) (by decide)

/-- C7: whenever inserting an Analysis with verdict label `result` and
confidence `c` succeeds, the per-user history query on the same user
returns a row carrying the same `result` and a confidence equal to `c`
rounded to 3 decimal places (the schema's `decimal(4, 3)`). -/
theorem insert_history_roundtrip (db : List Analysis) (id uid imageUrl result : String)
    (c : ℚ) (ts : Nat) (db' : List Analysis)
    (h : insertAnalysis db id uid imageUrl result c ts = some db') :
    ∃ row ∈ listByUser uid db', row.result = result ∧ row.confidence = round3 c := by
  unfold insertAnalysis decimalStore43 at h
  by_cases hr : -10 < round3 c ∧ round3 c < 10
  · rw [if_pos hr] at h
    simp only [Option.map_some'] at h
    obtain rfl := Option.some_inj.mp h
    refine ⟨⟨id, uid, imageUrl, result, round3 c, ts⟩, ?_, rfl, rfl⟩
    unfold listByUser
    rw [(List.perm_insertionSort _ _).mem_iff]
    apply List.mem_filter.mpr
    exact ⟨by simp, by simp⟩
  · rw [if_neg hr] at h
    simp at h

/-- C7 witness: inserting confidence `0.95` for user `"user1"` and
reading the history back yields a row with result `"Normal"` and
confidence `round3 0.95`. -/
theorem insert_history_roundtrip_witness :
    ∃ row ∈ listByUser "user1"
        [⟨"a1", "user1", "placeholder_url", "Normal", round3 0.95, 7⟩],
      row.result = "Normal" ∧ row.confidence = round3 0.95 := by
  have h1 : round3 (0.95 : ℚ) = 19 / 20 := by
    unfold round3
    rw [show (0.95 : ℚ) * 1000 = 950 by norm_num,
      show round (950 : ℚ) = 950 by rw [round_eq]; norm_num]
    norm_num
  have hcond : -10 < round3 (0.95 : ℚ) ∧ round3 (0.95 : ℚ) < 10 := by
    rw [h1]
    constructor <;> norm_num
  have h : insertAnalysis [] "a1" "user1" "placeholder_url" "Normal" 0.95 7 =
      some [⟨"a1", "user1", "placeholder_url", "Normal", round3 0.95, 7⟩] := by
    unfold insertAnalysis decimalStore43
    rw [if_pos hcond]
    rfl
  exact insert_history_roundtrip [] "a1" "user1" "placeholder_url" "Normal" 0.95 7 _ h

/-- C8 counterexample: an environment providing only `DATABASE_URL` and
`ANTHROPIC_API_KEY` — the identity-provider service-account credential
absent — passes the canonical startup check instead of failing with the
missing name enumerated. -/
theorem envcheck_canonical_ignores_firebase :
    checkRequiredEnvVars requiredEnvCanonical ["DATABASE_URL", "ANTHROPIC_API_KEY"] = none ∧
    "FIREBASE_SERVICE_ACCOUNT" ∉ (["DATABASE_URL", "ANTHROPIC_API_KEY"] : List String) :=
  ⟨rfl, by decide⟩

/-- C8 (amended): the variant startup check that requires all three
settings passes exactly when all three are present, and on failure the
reported list enumerates exactly the missing required names; the
canonical check requires only the database URL and the inference-API
key, so a missing identity-provider credential does not fail it. -/
theorem envcheck_variant_enumerates_missing (env : List String) :
    (checkRequiredEnvVars requiredEnvVariant env = none ↔
      ∀ k ∈ requiredEnvVariant, env.contains k = true) ∧
    (∀ missing, checkRequiredEnvVars requiredEnvVariant env = some missing →
      missing = requiredEnvVariant.filter (fun key => !(env.contains key)) ∧
      missing ≠ []) := by
  unfold checkRequiredEnvVars
  by_cases he : (requiredEnvVariant.filter (fun key => !(env.contains key))).isEmpty = true
  · rw [if_pos he]
    have hnil := List.isEmpty_iff.mp he
    constructor
    · constructor
      · intro _ k hk
        have hq := List.filter_eq_nil_iff.mp hnil k hk
        simpa using hq
      · intro _
        rfl
    · intro missing hmiss
      cases hmiss
  · rw [if_neg he]
    constructor
    · constructor
      · intro hcon
        cases hcon
      · intro hall
        exfalso
        apply he
        apply List.isEmpty_iff.mpr
        apply List.filter_eq_nil_iff.mpr
        intro k hk
        rw [hall k hk]
        decide
    · intro missing hmiss
      have hmm := (Option.some_inj.mp hmiss).symm
      refine ⟨hmm, ?_⟩
      rw [hmm]
      intro hnil
      exact he (List.isEmpty_iff.mpr hnil)

/-- C8 witness: with only `DATABASE_URL` present, the variant check fails
and enumerates exactly the two missing names. -/
theorem envcheck_variant_enumerates_missing_witness :
    (["FIREBASE_SERVICE_ACCOUNT", "ANTHROPIC_API_KEY"] : List String) =
      requiredEnvVariant.filter (fun key => !((["DATABASE_URL"] : List String).contains key)) ∧
    (["FIREBASE_SERVICE_ACCOUNT", "ANTHROPIC_API_KEY"] : List String) ≠ [] :=
  (envcheck_variant_enumerates_missing ["DATABASE_URL"]).2
    ["FIREBASE_SERVICE_ACCOUNT", "ANTHROPIC_API_KEY"] rfl
